import Mathlib

/-!
Shallow embedding of the sum-elimination puzzle game (src/src/App.tsx and
the type/constant module src/unnamed/part_000).

The game engine lives in the `App` component: session state is held in
React `useState` hooks and mutated by `startGame`, `addRow`, the timer
interval callback, `handleBlockClick`, and the selection-evaluation
effect.  We embed the whole session state as one structure `GameState`
and each mutation as a pure function on it.  React applies queued
functional state updates in order, so composing the field updates in
program order is a faithful rendering.

Randomness (`Math.random()` draws and `generateId()` results) is passed
in explicitly: a call site that materialises one row of tiles receives a
function `ids : Nat → String` giving the generated id per column and a
function `vals : Nat → Fin MAX_VALUE` giving the per-column value of
`Math.floor(Math.random() * MAX_VALUE)` (a natural number below
`MAX_VALUE`); target generation receives the index
`Math.floor(Math.random() * 6)` as a `Fin 6`.
-/

namespace SumEliminate

/-- Constant `GRID_COLS` from src/unnamed/part_000 line 22. -/
def GRID_COLS : Nat := 7

/-- Constant `GRID_ROWS` from src/unnamed/part_000 line 23. -/
def GRID_ROWS : Nat := 10

/-- Constant `INITIAL_ROWS` from src/unnamed/part_000 line 24. -/
def INITIAL_ROWS : Nat := 4

/-- Constant `MAX_VALUE` from src/unnamed/part_000 line 25. -/
def MAX_VALUE : Nat := 9

/-- Constant `TIME_LIMIT` from src/unnamed/part_000 line 26. -/
def TIME_LIMIT : Nat := 10

/-- Type `GameMode` from src/unnamed/part_000 line 1. -/
inductive GameMode where
  | classic
  | time
deriving DecidableEq, Repr

/-- Type `BlockData` from src/unnamed/part_000 lines 3-8.  Tile values are the
positive integers produced by `createRow`, so `value : Nat`; the row index
is decremented by row injection, so we keep it as `Int` (JS numbers are
signed). -/
structure BlockData where
  id : String
  value : Nat
  row : Int
  col : Nat
deriving DecidableEq, Repr

/-- The session state held by the `App` component's `useState` hooks,
src/src/App.tsx lines 22-31 (omitting the purely presentational
`isMusicOn` and the refs).  `mode` is `Option GameMode` because the hook
starts at `null`. -/
structure GameState where
  mode : Option GameMode
  grid : List BlockData
  target : Nat
  score : Nat
  selectedIds : List String
  gameOver : Bool
  timeLeft : Nat
  isPaused : Bool
deriving DecidableEq, Repr

/-- The initial hook values, src/src/App.tsx lines 22-31: `mode` null,
`grid` empty, `target` 0, `score` 0, `selectedIds` empty, `gameOver`
false, `timeLeft` TIME_LIMIT, `isPaused` false. -/
def initState : GameState :=
  { mode := none
    grid := []
    target := 0
    score := 0
    selectedIds := []
    gameOver := false
    timeLeft := TIME_LIMIT
    isPaused := false }

/-- Function `createRow` from src/src/App.tsx lines 12-19: one tile per column
`colIndex < GRID_COLS`, with value `Math.floor(Math.random()*MAX_VALUE)+1`
(the draw `vals colIndex` is the floored product, a natural below
`MAX_VALUE`) and id `generateId()` (given by `ids colIndex`). -/
def createRow (ids : Nat → String) (vals : Nat → Fin MAX_VALUE) (rowIndex : Int) :
    List BlockData :=
  (List.range GRID_COLS).map (fun colIndex =>
    { id := ids colIndex
      value := (vals colIndex).val + 1
      row := rowIndex
      col := colIndex })

/-- The fixed candidate set of `generateTarget`, src/src/App.tsx line 71. -/
def targetValues : List Nat := [10, 12, 15, 18, 20, 25]

/-- Function `generateTarget` from src/src/App.tsx lines 69-73:
`values[Math.floor(Math.random() * values.length)]`, the random index
passed in as `i : Fin 6`. -/
def generateTarget (i : Fin 6) : Nat :=
  targetValues.get ⟨i.val, i.isLt⟩

/-- The grid built by the `startGame` loop, src/src/App.tsx lines 77-80:
for `i = 0 .. INITIAL_ROWS - 1`, push `createRow(GRID_ROWS - 1 - i)`.
`ids i` / `vals i` are the random draws consumed by the `i`-th call. -/
def initialGrid (ids : Nat → Nat → String) (vals : Nat → Nat → Fin MAX_VALUE)
    (n : Nat) : List BlockData :=
  (List.range n).foldl
    (fun acc i => acc ++ createRow (ids i) (vals i) ((GRID_ROWS : Int) - 1 - (i : Int))) []

/-- Function `startGame` from src/src/App.tsx lines 75-88. -/
def startGame (ti : Fin 6) (ids : Nat → Nat → String) (vals : Nat → Nat → Fin MAX_VALUE)
    (selectedMode : GameMode) (s : GameState) : GameState :=
  { s with
    mode := some selectedMode
    grid := initialGrid ids vals INITIAL_ROWS
    score := 0
    gameOver := false
    selectedIds := []
    timeLeft := TIME_LIMIT
    isPaused := false
    target := generateTarget ti }

/-- Function `addRow` from src/src/App.tsx lines 90-110: if some block sits at row
0 the grid is full — set `gameOver` and return the grid unchanged;
otherwise shift every block up by one row and append a fresh bottom row
at `GRID_ROWS - 1`.  After the grid update, when the session is in time
mode, `setTimeLeft(TIME_LIMIT)` runs unconditionally (lines 107-109). -/
def addRow (ids : Nat → String) (vals : Nat → Fin MAX_VALUE) (s : GameState) : GameState :=
  let s1 :=
    if s.grid.any (fun b => b.row == 0) then
      { s with gameOver := true }
    else
      { s with grid :=
          s.grid.map (fun b => { b with row := b.row - 1 })
            ++ createRow ids vals ((GRID_ROWS : Int) - 1) }
  if s.mode = some GameMode.time then { s1 with timeLeft := TIME_LIMIT } else s1

/-- One firing of the time-mode interval callback, src/src/App.tsx lines
113-128.  The interval exists exactly while `mode === 'time' && !gameOver
&& !isPaused` (line 114); the callback decrements `timeLeft`, except that
at `timeLeft <= 1` it calls `addRow()` and resets to `TIME_LIMIT`. -/
def advanceTime (ids : Nat → String) (vals : Nat → Fin MAX_VALUE) (s : GameState) :
    GameState :=
  if s.mode = some GameMode.time ∧ s.gameOver = false ∧ s.isPaused = false then
    if s.timeLeft ≤ 1 then
      let s1 := addRow ids vals s
      { s1 with timeLeft := TIME_LIMIT }
    else
      { s with timeLeft := s.timeLeft - 1 }
  else s

/-- Function `handleBlockClick` from src/src/App.tsx lines 130-139: ignore clicks
when over or paused, otherwise toggle the id in `selectedIds`.  Note the
source performs no check that `id` references a tile of the grid. -/
def handleBlockClick (id : String) (s : GameState) : GameState :=
  if s.gameOver = true ∨ s.isPaused = true then s
  else if s.selectedIds.contains id then
    { s with selectedIds := s.selectedIds.filter (fun i => i != id) }
  else
    { s with selectedIds := s.selectedIds ++ [id] }

/-- The sum computed by the selection-evaluation effect, src/src/App.tsx
lines 143-145: the values of the grid tiles whose id is selected. -/
def selectionSum (s : GameState) : Nat :=
  (s.grid.filter (fun b => s.selectedIds.contains b.id)).foldl
    (fun sum b => sum + b.value) 0

/-- The clear branch of the selection-evaluation effect, src/src/App.tsx
lines 156-159: add `selectedIds.length * 10` to the score, drop the
selected tiles from the grid, empty the selection and generate a new
target (`ti` being the random index the new `generateTarget` call
consumes). -/
def clearStep (ti : Fin 6) (s : GameState) : GameState :=
  { s with
    score := s.score + s.selectedIds.length * 10
    grid := s.grid.filter (fun b => !(s.selectedIds.contains b.id))
    selectedIds := []
    target := generateTarget ti }

/-- The mode-specific round-advance after a clear, src/src/App.tsx lines
161-165: classic mode calls `addRow()`, time mode resets the timer. -/
def roundAdvance (ids : Nat → String) (vals : Nat → Fin MAX_VALUE) (s : GameState) :
    GameState :=
  if s.mode = some GameMode.classic then addRow ids vals s
  else if s.mode = some GameMode.time then { s with timeLeft := TIME_LIMIT }
  else s

/-- The selection-evaluation effect, src/src/App.tsx lines 142-170: on
`sum === target` run the clear branch then the round advance; on
`sum > target` abort the attempt by emptying the selection; otherwise do
nothing. -/
def evaluateSelection (ti : Fin 6) (ids : Nat → String) (vals : Nat → Fin MAX_VALUE)
    (s : GameState) : GameState :=
  let currentSum := selectionSum s
  if currentSum = s.target then roundAdvance ids vals (clearStep ti s)
  else if s.target < currentSum then { s with selectedIds := [] }
  else s

/-- A JavaScript number as far as the high-score path can observe it:
an integer or NaN.  `parseInt` on a non-numeric string yields NaN. -/
inductive JsNum where
  | nan
  | int (n : Int)
deriving DecidableEq, Repr

/-- Model of the JavaScript builtin `parseInt(s)` (radix 10) as used at
src/src/App.tsx line 58: skip leading spaces, read an optional sign, then
a maximal run of decimal digits; no digits means NaN (`none`). -/
def jsParseInt (s : String) : Option Int :=
  let cs := s.data.dropWhile (fun c => c = ' ')
  let signed : Bool × List Char :=
    match cs with
    | '-' :: rest => (true, rest)
    | '+' :: rest => (false, rest)
    | _ => (false, cs)
  let digits := signed.2.takeWhile Char.isDigit
  if digits.isEmpty then none
  else
    let n : Nat := digits.foldl (fun acc c => acc * 10 + (c.toNat - 48)) 0
    some (if signed.1 then -(n : Int) else (n : Int))

/-- The high-score value after the load effect, src/src/App.tsx lines
30 and 55-59: the hook starts at 0; if `localStorage.getItem` returned a
truthy string (non-null and non-empty), `setHighScore(parseInt(saved))`
runs, storing NaN when the string has no leading integer. -/
def loadHighScore (saved : Option String) : JsNum :=
  match saved with
  | none => JsNum.int 0
  | some str =>
    if str = "" then JsNum.int 0
    else
      match jsParseInt str with
      | none => JsNum.nan
      | some n => JsNum.int n

/-! ### Concrete random draws and sample states, used by witnesses -/

/-- A fixed id supply (one `generateId()` result per column). -/
def i0 : Nat → String := fun _ => "n"

/-- A fixed value-draw supply: every `Math.floor(Math.random()*MAX_VALUE)` is 0. -/
def v0 : Nat → Fin MAX_VALUE := fun _ => ⟨0, by decide⟩

/-- A fixed target-index draw. -/
def t0 : Fin 6 := ⟨0, by decide⟩

/-- A per-row id supply for `startGame`. -/
def i2 : Nat → Nat → String := fun _ _ => "n"

/-- A per-row value-draw supply for `startGame`. -/
def v2 : Nat → Nat → Fin MAX_VALUE := fun _ _ => ⟨0, by decide⟩

/-- A time-mode state whose top row is occupied and whose timer is mid-round. -/
def sFull : GameState :=
  { mode := some GameMode.time, grid := [⟨"a", 5, 0, 0⟩], target := 10, score := 0,
    selectedIds := [], gameOver := false, timeLeft := 5, isPaused := false }

/-- A classic-mode state with tiles 4, 6, 9 on the bottom row and the 4- and
6-tiles selected against target 10. -/
def sClassic : GameState :=
  { mode := some GameMode.classic,
    grid := [⟨"a", 4, 9, 0⟩, ⟨"b", 6, 9, 1⟩, ⟨"c", 9, 9, 2⟩],
    target := 10, score := 0, selectedIds := ["a", "b"],
    gameOver := false, timeLeft := 10, isPaused := false }

/-- A time-mode state with tiles 4 and 6 selected against target 10. -/
def sTime : GameState :=
  { mode := some GameMode.time, grid := [⟨"a", 4, 9, 0⟩, ⟨"b", 6, 9, 1⟩],
    target := 10, score := 0, selectedIds := ["a", "b"],
    gameOver := false, timeLeft := 7, isPaused := false }

/-- A time-mode state at the start of a round, used to drive the timer. -/
def sRound : GameState :=
  { mode := some GameMode.time, grid := [⟨"a", 4, 9, 0⟩], target := 15, score := 0,
    selectedIds := [], gameOver := false, timeLeft := TIME_LIMIT, isPaused := false }

/-- A time-mode state whose selection holds the stale id "z" (absent from the
grid) besides the present tiles 4 and 6, against target 10. -/
def sStale : GameState :=
  { mode := some GameMode.time, grid := [⟨"a", 4, 9, 0⟩, ⟨"b", 6, 9, 1⟩],
    target := 10, score := 0, selectedIds := ["a", "b", "z"],
    gameOver := false, timeLeft := 7, isPaused := false }

/-- A mid-session state with an empty selection and a generated target. -/
def sIdle : GameState :=
  { mode := some GameMode.classic, grid := [⟨"a", 5, 9, 0⟩], target := 15, score := 0,
    selectedIds := [], gameOver := false, timeLeft := 10, isPaused := false }

/-! ### The grid position invariant -/

/-- Two tiles occupy different cells. -/
def PosNe (a b : BlockData) : Prop := a.row ≠ b.row ∨ a.col ≠ b.col

instance : DecidableRel PosNe :=
  fun a b => inferInstanceAs (Decidable (a.row ≠ b.row ∨ a.col ≠ b.col))

/-- The grid invariant of the spec: no two tiles share `(row, col)` and every
row index lies in `[0, GRID_ROWS - 1]`. -/
def Invariant (g : List BlockData) : Prop :=
  (∀ b ∈ g, 0 ≤ b.row ∧ b.row < (GRID_ROWS : Int)) ∧ g.Pairwise PosNe

instance (g : List BlockData) : Decidable (Invariant g) :=
  inferInstanceAs
    (Decidable ((∀ b ∈ g, 0 ≤ b.row ∧ b.row < (GRID_ROWS : Int)) ∧ g.Pairwise PosNe))

/-! ### Helper lemmas about `createRow`, the initial grid and `addRow` -/

theorem mem_createRow {ids vals r} {b : BlockData} (h : b ∈ createRow ids vals r) :
    b.row = r ∧ b.col < GRID_COLS ∧ 1 ≤ b.value ∧ b.value ≤ MAX_VALUE := by
  unfold createRow at h
  rw [List.mem_map] at h
  obtain ⟨c, hc, rfl⟩ := h
  rw [List.mem_range] at hc
  exact ⟨rfl, hc, Nat.succ_le_succ (Nat.zero_le _), (vals c).isLt⟩

theorem createRow_pairwise (ids : Nat → String) (vals : Nat → Fin MAX_VALUE) (r : Int) :
    (createRow ids vals r).Pairwise PosNe := by
  unfold createRow
  rw [List.pairwise_map]
  exact (List.pairwise_lt_range GRID_COLS).imp (fun h => Or.inr (Nat.ne_of_lt h))

theorem initialGrid_succ (ids : Nat → Nat → String) (vals : Nat → Nat → Fin MAX_VALUE)
    (n : Nat) :
    initialGrid ids vals (n + 1) =
      initialGrid ids vals n
        ++ createRow (ids n) (vals n) ((GRID_ROWS : Int) - 1 - (n : Int)) := by
  unfold initialGrid
  rw [List.range_succ, List.foldl_append]
  rfl

theorem mem_initialGrid {ids vals n} {b : BlockData} :
    b ∈ initialGrid ids vals n →
      ∃ i < n, b.row = (GRID_ROWS : Int) - 1 - (i : Int) ∧ b.col < GRID_COLS := by
  induction n with
  | zero => intro h; simp [initialGrid] at h
  | succ n ih =>
    intro h
    rw [initialGrid_succ, List.mem_append] at h
    rcases h with h | h
    · obtain ⟨i, hi, hrow⟩ := ih h
      exact ⟨i, Nat.lt_succ_of_lt hi, hrow⟩
    · exact ⟨n, Nat.lt_succ_self n, (mem_createRow h).1, (mem_createRow h).2.1⟩

theorem invariant_initialGrid (ids : Nat → Nat → String) (vals : Nat → Nat → Fin MAX_VALUE)
    {n : Nat} (hn : n ≤ GRID_ROWS) : Invariant (initialGrid ids vals n) := by
  induction n with
  | zero => exact ⟨by simp [initialGrid], by simp [initialGrid]⟩
  | succ n ih =>
    have hn' : n ≤ GRID_ROWS := Nat.le_of_succ_le hn
    obtain ⟨ihb, ihp⟩ := ih hn'
    rw [initialGrid_succ]
    constructor
    · intro b hb
      rw [List.mem_append] at hb
      rcases hb with hb | hb
      · exact ihb b hb
      · have := (mem_createRow hb).1
        rw [this]
        unfold GRID_ROWS at hn ⊢
        omega
    · rw [List.pairwise_append]
      refine ⟨ihp, createRow_pairwise _ _ _, ?_⟩
      intro a ha b hb
      obtain ⟨i, hi, hrow, -⟩ := mem_initialGrid ha
      have hrow' := (mem_createRow hb).1
      left
      rw [hrow, hrow']
      omega

theorem addRow_eq_of_full {s : GameState} (ids vals)
    (h : s.grid.any (fun b => b.row == 0) = true) :
    addRow ids vals s =
      if s.mode = some GameMode.time
      then { s with gameOver := true, timeLeft := TIME_LIMIT }
      else { s with gameOver := true } := by
  unfold addRow
  rw [h]
  rfl

theorem addRow_eq_of_not_full {s : GameState} (ids vals)
    (h : s.grid.any (fun b => b.row == 0) = false) :
    addRow ids vals s =
      (if s.mode = some GameMode.time
       then { s with
                grid := s.grid.map (fun b => { b with row := b.row - 1 })
                  ++ createRow ids vals ((GRID_ROWS : Int) - 1)
                timeLeft := TIME_LIMIT }
       else { s with
                grid := s.grid.map (fun b => { b with row := b.row - 1 })
                  ++ createRow ids vals ((GRID_ROWS : Int) - 1) }) := by
  unfold addRow
  rw [h]
  rfl

theorem any_row_zero_eq_false {g : List BlockData} (h : ∀ b ∈ g, b.row ≠ 0) :
    g.any (fun b => b.row == 0) = false := by
  rw [List.any_eq_false]
  intro b hb
  simpa using h b hb

theorem any_row_zero_eq_true {g : List BlockData} (h : ∃ b ∈ g, b.row = 0) :
    g.any (fun b => b.row == 0) = true := by
  rw [List.any_eq_true]
  obtain ⟨b, hb, h0⟩ := h
  exact ⟨b, hb, by simpa using h0⟩

theorem addRow_grid_of_full {s : GameState} (ids vals)
    (h : ∃ b ∈ s.grid, b.row = 0) :
    (addRow ids vals s).grid = s.grid ∧ (addRow ids vals s).gameOver = true := by
  rw [addRow_eq_of_full ids vals (any_row_zero_eq_true h)]
  split <;> exact ⟨rfl, rfl⟩

theorem addRow_grid_of_not_full {s : GameState} (ids vals)
    (h : ∀ b ∈ s.grid, b.row ≠ 0) :
    (addRow ids vals s).grid =
        s.grid.map (fun b => { b with row := b.row - 1 })
          ++ createRow ids vals ((GRID_ROWS : Int) - 1) ∧
      (addRow ids vals s).gameOver = s.gameOver := by
  rw [addRow_eq_of_not_full ids vals (any_row_zero_eq_false h)]
  split <;> exact ⟨rfl, rfl⟩

theorem addRow_score (ids vals) (s : GameState) : (addRow ids vals s).score = s.score := by
  unfold addRow
  split <;> split <;> rfl

theorem addRow_selectedIds (ids vals) (s : GameState) :
    (addRow ids vals s).selectedIds = s.selectedIds := by
  unfold addRow
  split <;> split <;> rfl

theorem addRow_target (ids vals) (s : GameState) : (addRow ids vals s).target = s.target := by
  unfold addRow
  split <;> split <;> rfl

theorem addRow_mode (ids vals) (s : GameState) : (addRow ids vals s).mode = s.mode := by
  unfold addRow
  split <;> split <;> rfl

theorem addRow_isPaused (ids vals) (s : GameState) :
    (addRow ids vals s).isPaused = s.isPaused := by
  unfold addRow
  split <;> split <;> rfl

/-! ### Invariant preservation -/

theorem invariant_filter (p : BlockData → Bool) {g : List BlockData} (h : Invariant g) :
    Invariant (g.filter p) := by
  refine ⟨fun b hb => h.1 b (List.mem_of_mem_filter hb), h.2.sublist (List.filter_sublist g)⟩

theorem invariant_addRow {s : GameState} (ids vals) (h : Invariant s.grid) :
    Invariant (addRow ids vals s).grid := by
  by_cases hf : ∃ b ∈ s.grid, b.row = 0
  · rw [(addRow_grid_of_full ids vals hf).1]
    exact h
  · push_neg at hf
    rw [(addRow_grid_of_not_full ids vals hf).1]
    constructor
    · intro b hb
      rw [List.mem_append] at hb
      rcases hb with hb | hb
      · rw [List.mem_map] at hb
        obtain ⟨a, ha, rfl⟩ := hb
        have hbnd := h.1 a ha
        have hnz := hf a ha
        dsimp only
        omega
      · have := (mem_createRow hb).1
        rw [this]
        unfold GRID_ROWS
        omega
    · rw [List.pairwise_append]
      refine ⟨?_, createRow_pairwise _ _ _, ?_⟩
      · rw [List.pairwise_map]
        refine h.2.imp (fun hab => ?_)
        rcases hab with hr | hc
        · exact Or.inl (by dsimp only; omega)
        · exact Or.inr hc
      · intro a ha b hb
        rw [List.mem_map] at ha
        obtain ⟨a0, ha0, rfl⟩ := ha
        have hbnd := h.1 a0 ha0
        have hrow := (mem_createRow hb).1
        left
        dsimp only
        rw [hrow]
        unfold GRID_ROWS at hbnd ⊢
        omega

theorem clearStep_grid (ti : Fin 6) (s : GameState) :
    (clearStep ti s).grid = s.grid.filter (fun b => !(s.selectedIds.contains b.id)) := rfl

theorem invariant_roundAdvance {s : GameState} (ids vals) (h : Invariant s.grid) :
    Invariant (roundAdvance ids vals s).grid := by
  unfold roundAdvance
  split
  · exact invariant_addRow ids vals h
  · split
    · exact h
    · exact h

theorem invariant_evaluateSelection {s : GameState} (ti ids vals) (h : Invariant s.grid) :
    Invariant (evaluateSelection ti ids vals s).grid := by
  unfold evaluateSelection
  dsimp only
  split
  · exact invariant_roundAdvance ids vals
      (by rw [clearStep_grid]; exact invariant_filter _ h)
  · split
    · exact h
    · exact h

theorem handleBlockClick_grid (tid : String) (s : GameState) :
    (handleBlockClick tid s).grid = s.grid := by
  unfold handleBlockClick
  split
  · rfl
  · split <;> rfl

theorem invariant_advanceTime {s : GameState} (ids vals) (h : Invariant s.grid) :
    Invariant (advanceTime ids vals s).grid := by
  unfold advanceTime
  split
  · split
    · exact invariant_addRow ids vals h
    · exact h
  · exact h

/-! ### Helper lemmas about the clear branch -/

theorem evaluateSelection_eq_clear {ti ids vals} {s : GameState}
    (hsum : selectionSum s = s.target) :
    evaluateSelection ti ids vals s = roundAdvance ids vals (clearStep ti s) := by
  unfold evaluateSelection
  dsimp only
  rw [if_pos hsum]

theorem roundAdvance_score (ids vals) (t : GameState) :
    (roundAdvance ids vals t).score = t.score := by
  unfold roundAdvance
  split
  · exact addRow_score ids vals t
  · split <;> rfl

theorem roundAdvance_selectedIds (ids vals) (t : GameState) :
    (roundAdvance ids vals t).selectedIds = t.selectedIds := by
  unfold roundAdvance
  split
  · exact addRow_selectedIds ids vals t
  · split <;> rfl

theorem roundAdvance_target (ids vals) (t : GameState) :
    (roundAdvance ids vals t).target = t.target := by
  unfold roundAdvance
  split
  · exact addRow_target ids vals t
  · split <;> rfl

theorem mem_clearStep_grid (ti : Fin 6) (s : GameState) (b : BlockData) :
    b ∈ (clearStep ti s).grid ↔ b ∈ s.grid ∧ b.id ∉ s.selectedIds := by
  rw [clearStep_grid, List.mem_filter]
  simp

theorem generateTarget_mem (i : Fin 6) : generateTarget i ∈ targetValues :=
  List.get_mem targetValues i.val i.isLt

/-! ### Claims -/

/-- C1.  When the values of the currently selected tiles sum exactly to the
target, the selection-evaluation effect runs the clear branch followed by the
mode-specific round advance; the clear branch keeps exactly the grid tiles
whose id is not selected (removing the selected ones and no others), resets
the selection to empty, adds `selectedIds.length * 10` to the score, and
replaces the target by a freshly generated one from the candidate set; the
empty selection and the score increase survive the round advance. -/
theorem c1_clear_exact (ti : Fin 6) (ids : Nat → String) (vals : Nat → Fin MAX_VALUE)
    (s : GameState) (hsum : selectionSum s = s.target) :
    evaluateSelection ti ids vals s = roundAdvance ids vals (clearStep ti s) ∧
    (∀ b : BlockData, b ∈ (clearStep ti s).grid ↔ b ∈ s.grid ∧ b.id ∉ s.selectedIds) ∧
    (clearStep ti s).selectedIds = [] ∧
    (clearStep ti s).score = s.score + s.selectedIds.length * 10 ∧
    (clearStep ti s).target = generateTarget ti ∧
    generateTarget ti ∈ targetValues ∧
    (evaluateSelection ti ids vals s).selectedIds = [] ∧
    (evaluateSelection ti ids vals s).score = s.score + s.selectedIds.length * 10 := by
  refine ⟨evaluateSelection_eq_clear hsum, mem_clearStep_grid ti s, ?_, ?_, ?_,
    generateTarget_mem ti, ?_, ?_⟩
  · rfl
  · rfl
  · rfl
  · rw [evaluateSelection_eq_clear hsum, roundAdvance_selectedIds]
    rfl
  · rw [evaluateSelection_eq_clear hsum, roundAdvance_score]
    rfl

/-- Witness for C1 at the concrete classic-mode state `sClassic` (tiles
4, 6, 9; tiles 4 and 6 selected; target 10). -/
theorem c1_clear_exact_witness :
    (evaluateSelection t0 i0 v0 sClassic).selectedIds = [] ∧
    (evaluateSelection t0 i0 v0 sClassic).score
      = sClassic.score + sClassic.selectedIds.length * 10 :=
  ⟨(c1_clear_exact t0 i0 v0 sClassic (by decide)).2.2.2.2.2.2.1,
   (c1_clear_exact t0 i0 v0 sClassic (by decide)).2.2.2.2.2.2.2⟩

/-- C2.  When no tile occupies row 0, `addRow` keeps every existing tile with
its row decremented by one (id, value and column untouched: the first
`grid.length` entries of the new grid are exactly the shifted originals) and
appends exactly `GRID_COLS` fresh tiles, one per column `0 .. GRID_COLS - 1`
in order, all at row `GRID_ROWS - 1` with values in `[1, MAX_VALUE]`; the
`gameOver` flag is not raised. -/
theorem c2_row_injection (ids : Nat → String) (vals : Nat → Fin MAX_VALUE)
    (s : GameState) (hno : ∀ b ∈ s.grid, b.row ≠ 0) :
    (addRow ids vals s).grid.take s.grid.length
        = s.grid.map (fun b => { b with row := b.row - 1 }) ∧
    ((addRow ids vals s).grid.drop s.grid.length).length = GRID_COLS ∧
    ((addRow ids vals s).grid.drop s.grid.length).map (fun b => b.col)
        = List.range GRID_COLS ∧
    (∀ b ∈ (addRow ids vals s).grid.drop s.grid.length,
        b.row = (GRID_ROWS : Int) - 1 ∧ 1 ≤ b.value ∧ b.value ≤ MAX_VALUE) ∧
    (addRow ids vals s).gameOver = s.gameOver := by
  obtain ⟨hg, hover⟩ := addRow_grid_of_not_full ids vals hno
  have hlen : (s.grid.map (fun b => { b with row := b.row - 1 })).length = s.grid.length :=
    List.length_map _ _
  rw [hg, ← hlen, List.take_left, List.drop_left]
  refine ⟨rfl, by simp [createRow], ?_, ?_, hover⟩
  · unfold createRow
    rw [List.map_map]
    exact List.map_id (List.range GRID_COLS)
  · intro b hb
    exact ⟨(mem_createRow hb).1, (mem_createRow hb).2.2.1, (mem_createRow hb).2.2.2⟩

/-- Witness for C2 at the concrete state `sIdle` (one tile, at row 9). -/
theorem c2_row_injection_witness :
    (addRow i0 v0 sIdle).grid.take sIdle.grid.length
        = sIdle.grid.map (fun b => { b with row := b.row - 1 }) ∧
    ((addRow i0 v0 sIdle).grid.drop sIdle.grid.length).length = GRID_COLS ∧
    (addRow i0 v0 sIdle).gameOver = sIdle.gameOver :=
  ⟨(c2_row_injection i0 v0 sIdle (by decide)).1,
   (c2_row_injection i0 v0 sIdle (by decide)).2.1,
   (c2_row_injection i0 v0 sIdle (by decide)).2.2.2.2⟩

/-- Counterexample to C3 as stated: in time mode, `addRow` on a full grid
sets `gameOver` and leaves the grid alone, but it still mutates `timeLeft`
(the unconditional `setTimeLeft(TIME_LIMIT)` at src/src/App.tsx lines
107-109 runs even on the game-over path), so "no other state component (in
particular timeLeft) changes" fails at the state `sFull` whose timer reads
5. -/
theorem c3_cex_timeLeft_mutates :
    (addRow i0 v0 sFull).gameOver = true ∧
    (addRow i0 v0 sFull).grid = sFull.grid ∧
    (addRow i0 v0 sFull).timeLeft ≠ sFull.timeLeft := by decide

/-- C3 as amended.  When some tile occupies row 0, `addRow` sets `gameOver`
to true and leaves the grid, score, selection, target, mode and pause flag
unmodified; `timeLeft` is unchanged in classic mode (and before a mode is
chosen) but is reset to `TIME_LIMIT` in time mode. -/
theorem c3_game_over_frame (ids : Nat → String) (vals : Nat → Fin MAX_VALUE)
    (s : GameState) (hfull : ∃ b ∈ s.grid, b.row = 0) :
    (addRow ids vals s).grid = s.grid ∧
    (addRow ids vals s).gameOver = true ∧
    (addRow ids vals s).score = s.score ∧
    (addRow ids vals s).selectedIds = s.selectedIds ∧
    (addRow ids vals s).target = s.target ∧
    (addRow ids vals s).mode = s.mode ∧
    (addRow ids vals s).isPaused = s.isPaused ∧
    (addRow ids vals s).timeLeft
      = (if s.mode = some GameMode.time then TIME_LIMIT else s.timeLeft) := by
  rw [addRow_eq_of_full ids vals (any_row_zero_eq_true hfull)]
  by_cases hm : s.mode = some GameMode.time
  · rw [if_pos hm, if_pos hm]
    exact ⟨rfl, rfl, rfl, rfl, rfl, rfl, rfl, rfl⟩
  · rw [if_neg hm, if_neg hm]
    exact ⟨rfl, rfl, rfl, rfl, rfl, rfl, rfl, rfl⟩

/-- Witness for the amended C3 at the concrete full time-mode state `sFull`. -/
theorem c3_game_over_frame_witness :
    (addRow i0 v0 sFull).grid = sFull.grid ∧
    (addRow i0 v0 sFull).gameOver = true ∧
    (addRow i0 v0 sFull).score = sFull.score :=
  ⟨(c3_game_over_frame i0 v0 sFull ⟨⟨"a", 5, 0, 0⟩, by decide, rfl⟩).1,
   (c3_game_over_frame i0 v0 sFull ⟨⟨"a", 5, 0, 0⟩, by decide, rfl⟩).2.1,
   (c3_game_over_frame i0 v0 sFull ⟨⟨"a", 5, 0, 0⟩, by decide, rfl⟩).2.2.1⟩

/-- C5.  Every operation preserves the grid invariant (no two tiles share a
cell, all rows within `[0, GRID_ROWS - 1]`): `startGame` establishes it
outright, and `handleBlockClick`, the selection evaluation, `addRow` and
`advanceTime` each preserve it. -/
theorem c5_invariant_all_ops (ti : Fin 6) (ids2 : Nat → Nat → String)
    (vals2 : Nat → Nat → Fin MAX_VALUE) (ids : Nat → String) (vals : Nat → Fin MAX_VALUE)
    (m : GameMode) (tid : String) (s : GameState) :
    Invariant (startGame ti ids2 vals2 m s).grid ∧
    (Invariant s.grid → Invariant (handleBlockClick tid s).grid) ∧
    (Invariant s.grid → Invariant (evaluateSelection ti ids vals s).grid) ∧
    (Invariant s.grid → Invariant (addRow ids vals s).grid) ∧
    (Invariant s.grid → Invariant (advanceTime ids vals s).grid) := by
  refine ⟨?_, ?_, invariant_evaluateSelection ti ids vals,
    invariant_addRow ids vals, invariant_advanceTime ids vals⟩
  · exact invariant_initialGrid ids2 vals2 (by decide)
  · intro h
    rw [handleBlockClick_grid]
    exact h

/-- Witness for C5 at concrete inputs: the freshly started grid satisfies the
invariant, and `addRow` preserves it at the concrete state `sIdle`. -/
theorem c5_invariant_all_ops_witness :
    Invariant (startGame t0 i2 v2 GameMode.classic initState).grid ∧
    Invariant (addRow i0 v0 sIdle).grid :=
  ⟨(c5_invariant_all_ops t0 i2 v2 i0 v0 GameMode.classic "n" initState).1,
   (c5_invariant_all_ops t0 i2 v2 i0 v0 GameMode.classic "n" sIdle).2.2.2.1 (by decide)⟩

/-! ### Helper lemmas about the timer -/

theorem advanceTime_dec {ids vals} {t : GameState} (hm : t.mode = some GameMode.time)
    (ho : t.gameOver = false) (hp : t.isPaused = false) (ht : 2 ≤ t.timeLeft) :
    advanceTime ids vals t = { t with timeLeft := t.timeLeft - 1 } := by
  unfold advanceTime
  rw [if_pos ⟨hm, ho, hp⟩, if_neg (by omega)]

theorem advanceTime_iterate {ids vals} {s : GameState} (hm : s.mode = some GameMode.time)
    (ho : s.gameOver = false) (hp : s.isPaused = false) (ht : s.timeLeft = TIME_LIMIT) :
    ∀ k, k < TIME_LIMIT → (advanceTime ids vals)^[k] s = { s with timeLeft := TIME_LIMIT - k } := by
  intro k
  induction k with
  | zero =>
    intro _
    rw [Function.iterate_zero_apply, Nat.sub_zero, ← ht]
  | succ k ih =>
    intro hk
    have hk' : k < TIME_LIMIT := Nat.lt_of_succ_lt hk
    rw [Function.iterate_succ_apply', ih hk',
      advanceTime_dec (t := { s with timeLeft := TIME_LIMIT - k }) hm ho hp
        (by dsimp only; unfold TIME_LIMIT at hk ⊢; omega)]
    have harith : TIME_LIMIT - k - 1 = TIME_LIMIT - (k + 1) := by omega
    dsimp only
    rw [harith]

/-- C7.  In time mode (game running, not paused) with `timeLeft = TIME_LIMIT`
and no clears in between, each of the first `TIME_LIMIT - 1` calls of the
interval callback merely decrements `timeLeft` by one, and the
`TIME_LIMIT`-th call performs exactly one row injection and brings
`timeLeft` back to `TIME_LIMIT`: the grid gains a fresh bottom row (and
`gameOver` stays false) when row 0 was free, and stays unmodified with
`gameOver` true when row 0 was occupied at the injection. -/
theorem c7_timer_round (ids : Nat → String) (vals : Nat → Fin MAX_VALUE) (s : GameState)
    (hm : s.mode = some GameMode.time) (ho : s.gameOver = false)
    (hp : s.isPaused = false) (ht : s.timeLeft = TIME_LIMIT) :
    (∀ k, k < TIME_LIMIT →
        (advanceTime ids vals)^[k] s = { s with timeLeft := TIME_LIMIT - k }) ∧
    (advanceTime ids vals)^[TIME_LIMIT] s
        = { addRow ids vals { s with timeLeft := 1 } with timeLeft := TIME_LIMIT } ∧
    ((advanceTime ids vals)^[TIME_LIMIT] s).timeLeft = TIME_LIMIT ∧
    ((∀ b ∈ s.grid, b.row ≠ 0) →
        ((advanceTime ids vals)^[TIME_LIMIT] s).grid
            = s.grid.map (fun b => { b with row := b.row - 1 })
                ++ createRow ids vals ((GRID_ROWS : Int) - 1) ∧
        ((advanceTime ids vals)^[TIME_LIMIT] s).gameOver = false) ∧
    ((∃ b ∈ s.grid, b.row = 0) →
        ((advanceTime ids vals)^[TIME_LIMIT] s).grid = s.grid ∧
        ((advanceTime ids vals)^[TIME_LIMIT] s).gameOver = true) := by
  have hiter := @advanceTime_iterate ids vals s hm ho hp ht
  have hlast : (advanceTime ids vals)^[TIME_LIMIT] s
      = { addRow ids vals { s with timeLeft := 1 } with timeLeft := TIME_LIMIT } := by
    have h9 : (advanceTime ids vals)^[9] s = { s with timeLeft := 1 } := by
      have := hiter 9 (by decide)
      rw [this]
      rfl
    have hstep : (advanceTime ids vals)^[TIME_LIMIT] s
        = advanceTime ids vals ((advanceTime ids vals)^[9] s) :=
      Function.iterate_succ_apply' (advanceTime ids vals) 9 s
    rw [hstep, h9]
    unfold advanceTime
    rw [if_pos ⟨hm, ho, hp⟩, if_pos (Nat.le_refl 1)]
  refine ⟨hiter, hlast, by rw [hlast], ?_, ?_⟩
  · intro hno
    rw [hlast]
    have := addRow_grid_of_not_full (s := { s with timeLeft := 1 }) ids vals hno
    exact ⟨this.1, by rw [this.2]; exact ho⟩
  · intro hfull
    rw [hlast]
    exact addRow_grid_of_full (s := { s with timeLeft := 1 }) ids vals hfull

/-- Witness for C7 at the concrete round-start state `sRound`. -/
theorem c7_timer_round_witness :
    ((advanceTime i0 v0)^[3] sRound).timeLeft = TIME_LIMIT - 3 ∧
    ((advanceTime i0 v0)^[TIME_LIMIT] sRound).timeLeft = TIME_LIMIT ∧
    ((advanceTime i0 v0)^[TIME_LIMIT] sRound).gameOver = false :=
  ⟨by rw [(c7_timer_round i0 v0 sRound rfl rfl rfl rfl).1 3 (by decide)],
   (c7_timer_round i0 v0 sRound rfl rfl rfl rfl).2.2.1,
   ((c7_timer_round i0 v0 sRound rfl rfl rfl rfl).2.2.2.1 (by decide)).2⟩

/-- C8.  After a clear (selection sum equals the target), classic mode
immediately performs exactly one row injection — the evaluation result is
literally `addRow` applied to the cleared state — while time mode performs no
injection: its grid is exactly the cleared grid (the original minus the
selected tiles) and `timeLeft` is reset to `TIME_LIMIT`. -/
theorem c8_mode_advance (ti : Fin 6) (ids : Nat → String) (vals : Nat → Fin MAX_VALUE)
    (s : GameState) (hsum : selectionSum s = s.target) :
    (s.mode = some GameMode.classic →
        evaluateSelection ti ids vals s = addRow ids vals (clearStep ti s)) ∧
    (s.mode = some GameMode.time →
        evaluateSelection ti ids vals s = { clearStep ti s with timeLeft := TIME_LIMIT } ∧
        (evaluateSelection ti ids vals s).grid
            = s.grid.filter (fun b => !(s.selectedIds.contains b.id)) ∧
        (evaluateSelection ti ids vals s).timeLeft = TIME_LIMIT) := by
  rw [evaluateSelection_eq_clear hsum]
  constructor
  · intro hmc
    unfold roundAdvance
    rw [if_pos (show (clearStep ti s).mode = some GameMode.classic from hmc)]
  · intro hmt
    have hadv : roundAdvance ids vals (clearStep ti s)
        = { clearStep ti s with timeLeft := TIME_LIMIT } := by
      unfold roundAdvance
      rw [if_neg (show ¬(clearStep ti s).mode = some GameMode.classic by
            show ¬s.mode = some GameMode.classic
            rw [hmt]
            simp),
        if_pos (show (clearStep ti s).mode = some GameMode.time from hmt)]
    exact ⟨hadv, by rw [hadv]; rfl, by rw [hadv]⟩

/-- Witness for C8: the classic-mode state `sClassic` evaluates to `addRow`
of its cleared state, and the time-mode state `sTime` gets its timer reset
with the cleared grid. -/
theorem c8_mode_advance_witness :
    evaluateSelection t0 i0 v0 sClassic = addRow i0 v0 (clearStep t0 sClassic) ∧
    (evaluateSelection t0 i0 v0 sTime).grid
        = sTime.grid.filter (fun b => !(sTime.selectedIds.contains b.id)) ∧
    (evaluateSelection t0 i0 v0 sTime).timeLeft = TIME_LIMIT :=
  ⟨(c8_mode_advance t0 i0 v0 sClassic (by decide)).1 rfl,
   ((c8_mode_advance t0 i0 v0 sTime (by decide)).2 rfl).2.1,
   ((c8_mode_advance t0 i0 v0 sTime (by decide)).2 rfl).2.2⟩

/-- C4 (code bug).  `handleBlockClick` guards only on `gameOver` and
`isPaused` (src/src/App.tsx line 131) and never checks that the clicked id
references a tile of the grid, so a stale id — here "z", absent from the
grid of `sIdle` — is appended to the selection instead of being ignored:
the call is not a no-op and the stale id enters the selection state. -/
theorem c4_stale_click_mutates_selection :
    (∀ b ∈ sIdle.grid, b.id ≠ "z") ∧
    sIdle.gameOver = false ∧
    sIdle.isPaused = false ∧
    (handleBlockClick "z" sIdle).selectedIds = ["z"] ∧
    handleBlockClick "z" sIdle ≠ sIdle := by decide

/-- Counterexample to C6 as stated: the process-start state (src/src/App.tsx
lines 22-31) has `target = 0` (the `useState(0)` initial value, before any
`generateTarget` call), so the empty selection's sum 0 *does* equal the
current target there, and the evaluation effect does take the clear branch
(observably: it replaces the target), contradicting "an empty selection
never equals the current target" for every reachable state. -/
theorem c6_cex_initial_target_zero :
    initState.selectedIds = [] ∧
    selectionSum initState = initState.target ∧
    evaluateSelection t0 i0 v0 initState ≠ initState := by decide

/-- C6 as amended.  Every target produced by `generateTarget` lies in the
candidate set `{10, 12, 15, 18, 20, 25}`, whose members are all positive; in
any state whose target is such a generated value (every state after
`startGame` or a clear — only the pre-session initial target 0 escapes
this), an empty selection sums to 0, never equals the target, and leaves the
state untouched: no spurious clear. -/
theorem c6_no_spurious_clear (ti : Fin 6) (ids : Nat → String) (vals : Nat → Fin MAX_VALUE)
    (s : GameState) (hsel : s.selectedIds = []) (htar : s.target ∈ targetValues) :
    (∀ i : Fin 6, generateTarget i ∈ targetValues ∧ 0 < generateTarget i) ∧
    selectionSum s = 0 ∧
    selectionSum s ≠ s.target ∧
    evaluateSelection ti ids vals s = s := by
  have hzero : selectionSum s = 0 := by
    unfold selectionSum
    rw [hsel]
    simp
  have hpos : 0 < s.target := by
    simp only [targetValues, List.mem_cons, List.not_mem_nil, or_false] at htar
    rcases htar with h | h | h | h | h | h <;> omega
  refine ⟨by decide, hzero, by omega, ?_⟩
  unfold evaluateSelection
  dsimp only
  rw [hzero, if_neg (by omega), if_neg (by omega)]

/-- Witness for the amended C6 at the concrete idle state `sIdle` (empty
selection, generated target 15). -/
theorem c6_no_spurious_clear_witness :
    selectionSum sIdle ≠ sIdle.target ∧ evaluateSelection t0 i0 v0 sIdle = sIdle :=
  ⟨(c6_no_spurious_clear t0 i0 v0 sIdle rfl (by decide)).2.2.1,
   (c6_no_spurious_clear t0 i0 v0 sIdle rfl (by decide)).2.2.2⟩

/-- C9 (code bug).  The load effect (src/src/App.tsx lines 55-59) defaults a
missing or empty persisted value to 0, but for a corrupt value it stores
`parseInt(saved)` with no NaN or sign guard: `"abc"` yields NaN (not 0,
contradicting the claim that corrupt values default to zero), and a negative
value such as `"-5"` is propagated as is. -/
theorem c9_corrupt_highscore_propagates :
    loadHighScore none = JsNum.int 0 ∧
    loadHighScore (some "") = JsNum.int 0 ∧
    loadHighScore (some "42") = JsNum.int 42 ∧
    loadHighScore (some "abc") = JsNum.nan ∧
    loadHighScore (some "abc") ≠ JsNum.int 0 ∧
    loadHighScore (some "-5") = JsNum.int (-5) := by decide

theorem length_filter_not_add (p : BlockData → Bool) (l : List BlockData) :
    (l.filter (fun x => !(p x))).length + (l.filter p).length = l.length := by
  induction l with
  | nil => rfl
  | cons x xs ih => by_cases h : p x <;> simp [List.filter_cons, h] <;> omega

/-- C10.  During selection evaluation only selected ids present in the grid
contribute to the sum, while the clear-branch score increment is
`10 * selectedIds.length`; so when the sum of the present members hits the
target while the selection holds an id absent from the grid, the score grows
by strictly more than 10 times the number of tiles actually removed (the
grid shrinks by exactly the number of present selected tiles, which is less
than the selection size). -/
theorem c10_stale_ids_inflate_score (ti : Fin 6) (ids : Nat → String)
    (vals : Nat → Fin MAX_VALUE) (s : GameState) (a : String)
    (hnodup : (s.grid.map (fun b => b.id)).Nodup)
    (ha : a ∈ s.selectedIds)
    (habs : ∀ b ∈ s.grid, b.id ≠ a)
    (hsum : selectionSum s = s.target) :
    (evaluateSelection ti ids vals s).score = s.score + s.selectedIds.length * 10 ∧
    (clearStep ti s).grid.length
        + (s.grid.filter (fun b => s.selectedIds.contains b.id)).length = s.grid.length ∧
    (s.grid.filter (fun b => s.selectedIds.contains b.id)).length < s.selectedIds.length ∧
    (s.grid.filter (fun b => s.selectedIds.contains b.id)).length * 10
        < s.selectedIds.length * 10 := by
  have hcount : (s.grid.filter (fun b => s.selectedIds.contains b.id)).length
      < s.selectedIds.length := by
    have hsub : List.Sublist (s.grid.filter (fun b => s.selectedIds.contains b.id)) s.grid :=
      List.filter_sublist s.grid
    have hids : ((s.grid.filter (fun b => s.selectedIds.contains b.id)).map
        (fun b => b.id)).Nodup :=
      hnodup.sublist (hsub.map (fun b => b.id))
    have hsubset : ∀ x ∈ (s.grid.filter (fun b => s.selectedIds.contains b.id)).map
        (fun b => b.id), x ∈ s.selectedIds.filter (fun i => i != a) := by
      intro x hx
      rw [List.mem_map] at hx
      obtain ⟨b, hb, rfl⟩ := hx
      have hbg : b ∈ s.grid := List.mem_of_mem_filter hb
      have hbp := List.of_mem_filter hb
      rw [List.mem_filter]
      exact ⟨by simpa using hbp, by simpa using habs b hbg⟩
    have hlen1 := (hids.subperm hsubset).length_le
    have hlen2 : ((s.grid.filter (fun b => s.selectedIds.contains b.id)).map
        (fun b => b.id)).length
        = (s.grid.filter (fun b => s.selectedIds.contains b.id)).length :=
      List.length_map _ _
    have hlen3 : (s.selectedIds.filter (fun i => i != a)).length < s.selectedIds.length := by
      have hle := List.length_filter_le (fun i => i != a) s.selectedIds
      have hne : (s.selectedIds.filter (fun i => i != a)).length ≠ s.selectedIds.length := by
        intro heq
        have hall := List.filter_length_eq_length.mp heq
        have := hall a ha
        simp at this
      omega
    omega
  refine ⟨?_, ?_, hcount, by omega⟩
  · rw [evaluateSelection_eq_clear hsum, roundAdvance_score]
    rfl
  · rw [clearStep_grid]
    exact length_filter_not_add (fun b => s.selectedIds.contains b.id) s.grid

/-- Witness for C10 at the concrete state `sStale`: the selection holds the
stale id "z" besides the two tiles 4 and 6 that sum to the target 10, so the
score grows by 30 while only 2 tiles leave the grid. -/
theorem c10_stale_ids_inflate_score_witness :
    (evaluateSelection t0 i0 v0 sStale).score
        = sStale.score + sStale.selectedIds.length * 10 ∧
    (sStale.grid.filter (fun b => sStale.selectedIds.contains b.id)).length
        < sStale.selectedIds.length :=
  ⟨(c10_stale_ids_inflate_score t0 i0 v0 sStale "z" (by decide) (by decide)
      (by decide) (by decide)).1,
   (c10_stale_ids_inflate_score t0 i0 v0 sStale "z" (by decide) (by decide)
      (by decide) (by decide)).2.2.1⟩

end SumEliminate
